import Mathlib

/-! Verification development for `assets/js/main.js`

A shallow embedding of the console-menu page script: the header clock, the
category / vertical-list navigation controller, the timeline expansion
controller and the star-field simulator, followed by theorems about them.

Modelling conventions
* JavaScript numbers that the script only uses as non-negative integers
  (date fields, viewport sizes, handles) are `Nat`; the simulator's real-valued
  quantities (positions, velocities, timestamps) are exact rationals `ℚ`.
* A DOM lookup that may fail (`querySelector`, `find`, `?.`) is an `Option`.
* `Math.random` and `Math.sin` belong to the host and are taken as a parameter
  (`Host`), and so is `String.prototype.toUpperCase` (`toUpperCase`).
-/

namespace XMB

/-! ## Host string helpers -/

/-- The characters `String.prototype.trim` strips: ECMAScript `WhiteSpace` and
`LineTerminator`. -/
def jsIsWhiteSpace (c : Char) : Bool :=
  c.toNat = 0x09 || c.toNat = 0x0A || c.toNat = 0x0B || c.toNat = 0x0C ||
  c.toNat = 0x0D || c.toNat = 0x20 || c.toNat = 0xA0 || c.toNat = 0x1680 ||
  (0x2000 ≤ c.toNat && c.toNat ≤ 0x200A) || c.toNat = 0x2028 || c.toNat = 0x2029 ||
  c.toNat = 0x202F || c.toNat = 0x205F || c.toNat = 0x3000 || c.toNat = 0xFEFF

/-- `s.trim()`. -/
def jsTrim (s : String) : String :=
  String.mk ((s.data.dropWhile jsIsWhiteSpace).reverse.dropWhile jsIsWhiteSpace).reverse

/-- Truthiness of a JavaScript string: non-empty. -/
def truthy (s : String) : Bool := s != ""

/-- `a || b` on possibly-undefined strings: `a` when it is a non-empty string. -/
def orElse (a : Option String) (b : String) : String :=
  match a with
  | some s => if truthy s then s else b
  | none => b

/-- `category[0].toUpperCase() + category.slice(1)`, with the host's
`String.prototype.toUpperCase` as a parameter.  `category[0]` is one UTF-16 code
unit: for a first character outside the basic plane it is a lone surrogate,
which upper-casing leaves alone, so the string comes back unchanged. -/
def capitalize (toUpperCase : String → String) (s : String) : String :=
  match s.data with
  | [] => ""
  | c :: rest =>
    if c.toNat < 0x10000 then toUpperCase (String.singleton c) ++ String.mk rest else s

/-- Upper-casing of the letters `a`-`z`, the part of `toUpperCase` the sample
pages need. -/
def asciiUpper (s : String) : String := String.mk (s.data.map Char.toUpper)

/-! ## Live clock (`pad`, `formatClock`) -/

/-- The four `Date` getters `formatClock` reads. -/
structure JsDate where
  getMonth : Nat
  getDate : Nat
  getHours : Nat
  getMinutes : Nat
  deriving Repr, DecidableEq

/-- `pad(n)`: `n < 10 ? "0" + n : "" + n`. -/
def pad (n : Nat) : String :=
  if n < 10 then "0" ++ toString n else "" ++ toString n

/-- `formatClock(d)`, following the source statement by statement. -/
def formatClock (d : JsDate) : String :=
  let month := d.getMonth + 1
  let day := d.getDate
  let hours := d.getHours
  let minutes := pad d.getMinutes
  let ampm := if hours ≥ 12 then "PM" else "AM"
  let hours := hours % 12
  let hours := if hours ≠ 0 then hours else 12
  toString month ++ "/" ++ toString day ++ " " ++ toString hours ++ ":" ++ minutes ++ " " ++ ampm

/-- Clock text as the specification words it: the 12-hour hour. -/
def specHour12 (h : Nat) : Nat := if h % 12 = 0 then 12 else h % 12

/-- Clock text as the specification words it: the minute as two decimal digits. -/
def specTwoDigits (mi : Nat) : String :=
  String.mk [Char.ofNat (48 + mi / 10), Char.ofNat (48 + mi % 10)]

/-- Clock text as the specification words it: the day half. -/
def specMeridiem (h : Nat) : String := if h < 12 then "AM" else "PM"

/-- Clock text as the specification words it: `"m/d H:MM AP"` for month number
`m`, day `d`, hour `h` and minute `mi`. -/
def specClockText (m d h mi : Nat) : String :=
  Nat.repr m ++ "/" ++ Nat.repr d ++ " " ++ Nat.repr (specHour12 h) ++ ":" ++
    specTwoDigits mi ++ " " ++ specMeridiem h

/-- No leading zero: the text does not start with the digit `0`. -/
def noLeadingZero (s : String) : Bool := s.data.head? != some '0'

/-! ## Star field: particle count -/

/-- The `count` computed by `initStars` from the current `width` and `height`:
`Math.max(60, Math.min(220, Math.floor(area / 12000) + 60))`. -/
def starCount (width height : Nat) : Nat :=
  let area := width * height
  max 60 (min 220 (area / 12000 + 60))

/-! ## Navigation: page model

What the script reads and writes of the page.  The children of a vertical list
are its `.vn-item` elements, in document order, and nothing else (the markup
contract); items are focusable and not nested.  Scrolling
(`smoothCenterButton`, `ensureVisibleInScroll`) depends on layout geometry only
and is left out.
-/

/-- A `.vn-item` element. -/
structure Item where
  /-- `textContent` of `item.querySelector(".title")`, if there is such an element. -/
  title : Option String
  /-- `textContent` of `item.querySelector(".title .t")`, if there is such an element. -/
  titleT : Option String
  /-- `innerHTML` of `item.querySelector(".sub")`, if there is such an element. -/
  sub : Option String
  /-- `classList.contains("expanded")`. -/
  expanded : Bool
  deriving Repr, DecidableEq

/-- A `.vertical-list` element. -/
structure VList where
  /-- `dataset.category` (`none` when the attribute is absent). -/
  category : Option String
  /-- `hasAttribute("data-timeline")`. -/
  timeline : Bool
  /-- `classList.contains("active")`. -/
  active : Bool
  /-- `hasAttribute("hidden")`. -/
  hidden : Bool
  items : List Item
  deriving Repr, DecidableEq

/-- A `.cat-btn` element. -/
structure CatButton where
  /-- `dataset.category` (`none` when the attribute is absent). -/
  category : Option String
  /-- `classList.contains("active")`. -/
  active : Bool
  /-- The `aria-selected` attribute. -/
  ariaSelected : Option String
  /-- `textContent` of `btn.querySelector(".cat-label")`, if there is such an element. -/
  catLabel : Option String
  deriving Repr, DecidableEq

/-- The three strings `setCenterLabel` interpolates into `#center-label`. -/
structure CenterLabel where
  iconHref : String
  safeTitle : String
  safeDesc : String
  deriving Repr, DecidableEq

/-- The `innerHTML` assigned by `setCenterLabel`. -/
def CenterLabel.innerHTML (c : CenterLabel) : String :=
  "<svg class=\"icon\" aria-hidden=\"true\"><use href=\"" ++ c.iconHref ++ "\"></use></svg>" ++
  "<div class=\"wrap\"><div class=\"title\">" ++ c.safeTitle ++ "</div>" ++
  (if truthy c.safeDesc then "<div class=\"desc\">" ++ c.safeDesc ++ "</div>" else "") ++
  "</div>"

/-- Text the HTML fragment parser takes over unchanged as character data: it
has no `<`, no `&`, no carriage return and no NUL. -/
def plainText (s : String) : Bool :=
  s.data.all (fun ch => ch != '<' && ch != '&' && ch != '\r' && ch.toNat != 0)

/-- Text the HTML fragment parser takes over unchanged as a double-quoted
attribute value: it has no `"`, no `&`, no carriage return and no NUL. -/
def plainAttr (s : String) : Bool :=
  s.data.all (fun ch => ch != '"' && ch != '&' && ch != '\r' && ch.toNat != 0)

/-- Whether the three interpolated strings pass through the parse of the
assigned `innerHTML` unchanged, so that the label consists of the icon, the
`.title` element and, when `safeDesc` is not empty, the `.desc` element. -/
def CenterLabel.plain (c : CenterLabel) : Bool :=
  plainAttr c.iconHref && plainText c.safeTitle && plainText c.safeDesc

/-- The text of the label's `.title` element once the assigned `innerHTML` is
parsed; `none` when an interpolated string carries markup, whose parse decides
the elements then and is not modelled. -/
def CenterLabel.titleElement (c : CenterLabel) : Option String :=
  if c.plain then some c.safeTitle else none

/-- The text of the label's `.desc` element once the assigned `innerHTML` is
parsed: `some none` when the label has no such element, `none` when an
interpolated string carries markup, whose parse decides the elements then and
is not modelled. -/
def CenterLabel.descElement (c : CenterLabel) : Option (Option String) :=
  if c.plain then some (if truthy c.safeDesc then some c.safeDesc else none) else none

/-- Which element has keyboard focus, as far as the script moves it. -/
inductive Focus where
  | elsewhere
  | catButton (index : Nat)
  | item (list : Nat) (index : Nat)
  deriving Repr, DecidableEq

/-- The page state the navigation and timeline controllers work on. -/
structure Page where
  /-- `catButtons`, in document order. -/
  catButtons : List CatButton
  /-- `verticalLists`, in document order. -/
  verticalLists : List VList
  /-- Whether `.horizontal-nav` exists. -/
  horizontalNav : Bool
  /-- Whether `#center-label` exists. -/
  centerLabelEl : Bool
  /-- What the script last wrote into `#center-label` (`none` before the first write). -/
  centerLabel : Option CenterLabel
  /-- `document.body.classList.contains("timeline-mode")`. -/
  timelineMode : Bool
  /-- `document.body.classList.contains("skills-mode")`. -/
  skillsMode : Bool
  focus : Focus
  deriving Repr, DecidableEq

/-- `catIconMap[category]` for the six own keys of the map (identifiers that
name members inherited from `Object.prototype` are outside the model). -/
def catIconMap (category : Option String) : Option String :=
  match category with
  | some "video" => some "#icon-video"
  | some "music" => some "#icon-music"
  | some "game" => some "#icon-game"
  | some "network" => some "#icon-network"
  | some "store" => some "#icon-store"
  | some "friends" => some "#icon-friends"
  | _ => none

/-- `setCenterLabel(title, category, desc)`. -/
def setCenterLabel (p : Page) (title : String) (category : Option String) (desc : String) : Page :=
  if !p.centerLabelEl then p else
  let iconHref := orElse (catIconMap category) "#icon-video"
  let safeTitle := orElse (some title) ""
  let safeDesc := orElse (some desc) ""
  { p with centerLabel := some ⟨iconHref, safeTitle, safeDesc⟩ }

/-- The text a template literal gives a possibly-undefined string. -/
def templateText (category : Option String) : String :=
  match category with
  | some c => c
  | none => "undefined"

/-- Whether the text interpolated into the attribute selector stays inside its
double-quoted string: no `"`, no backslash, no line feed, carriage return or
form feed, and no NUL. -/
def selectorSafe (category : Option String) : Bool :=
  (templateText category).data.all (fun ch =>
    ch != '"' && ch != '\\' && ch != '\n' && ch != '\r' && ch.toNat != 0x0C && ch.toNat != 0)

/-- `document.querySelector(".vertical-list[data-category=\"" + category + "\"]")`.
For a selector-safe text the result is `some r`, with `r` the first vertical
list whose `data-category` attribute equals the text.  Any other text breaks
out of the quoted string and is outside the model: the host parses it as CSS
and rejects the selector with a `SyntaxError` (as for `mu"sic`) or reads a
different selector; the result is `none`, which stands for the rejection. -/
def queryListByCategory (p : Page) (category : Option String) : Option (Option VList) :=
  if selectorSafe category then
    some (p.verticalLists.find? (fun l => l.category == some (templateText category)))
  else none

/-- `list.querySelector(".title")?.textContent`: the first `.title` in the list. -/
def VList.queryTitle (l : VList) : Option String := l.items.findSome? (fun it => it.title)

/-- `list.querySelector(".title .t")?.textContent`: the first `.title .t` in the list. -/
def VList.queryTitleT (l : VList) : Option String := l.items.findSome? (fun it => it.titleT)

/-- `list.querySelector(".sub")?.innerHTML`: the first `.sub` in the list. -/
def VList.querySub (l : VList) : Option String := l.items.findSome? (fun it => it.sub)

/-- The `catLbl` expression of `activateCategory`. -/
def catLbl (toUpperCase : String → String) (p : Page) (category : Option String) : String :=
  orElse (((p.catButtons.find? (fun b => b.category == category)).bind
      (fun b => b.catLabel)).map jsTrim)
    (match category with
     | some c => if truthy c then capitalize toUpperCase c else ""
     | none => "")

/-- `activateCategory(category)`; `toUpperCase` is the host's string method.
When `querySelector` on line 129 throws, the call ends there: the buttons and
lists are updated, the layout modes and the center label are not. -/
def activateCategory (toUpperCase : String → String) (p : Page) (category : Option String) :
    Page :=
  -- Update buttons (active + aria-selected)
  let buttons := p.catButtons.map (fun btn =>
    let isActive := btn.category == category
    { btn with active := isActive, ariaSelected := some (if isActive then "true" else "false") })
  -- Update vertical lists (show/hide)
  let lists := p.verticalLists.map (fun list =>
    let isTarget := list.category == category
    { list with active := isTarget, hidden := !isTarget })
  let p := { p with catButtons := buttons, verticalLists := lists }
  -- Toggle timeline layout mode based on the active list
  match queryListByCategory p category with
  | none => p
  | some list =>
    let isTimeline := match list with
      | some l => l.timeline
      | none => false
    let p := { p with timelineMode := isTimeline, skillsMode := category == some "network" }
    -- Update center label from the first title / sub of the list, or the category label
    let firstTitle := (if isTimeline then list.bind VList.queryTitleT
                       else list.bind VList.queryTitle).map jsTrim
    let firstDesc := orElse ((list.bind VList.querySub).map jsTrim) ""
    let lbl := catLbl toUpperCase p category
    setCenterLabel p (orElse firstTitle lbl) category
      (if isTimeline then "" else (if (firstTitle.map truthy).getD false then firstDesc else ""))

/-- The `mouseover` / `focusin` handler of list `li`, for an event whose target
lies in item `ii` of that list. -/
def itemLabelHandler (p : Page) (li ii : Nat) : Page :=
  match p.verticalLists[li]? with
  | none => p
  | some list =>
    match list.items[ii]? with
    | none => p
    | some item =>
      let title := (if list.timeline then item.titleT else item.title).map jsTrim
      let desc := if list.timeline then "" else orElse (item.sub.map jsTrim) ""
      match title with
      | some t => if truthy t then setCenterLabel p t list.category desc else p
      | none => p

/-- `item.focus()` on item `ii` of list `li` (items are focusable): focus moves
there and the list's `focusin` handler runs. -/
def focusItem (p : Page) (li ii : Nat) : Page :=
  if p.focus = Focus.item li ii then p
  else itemLabelHandler { p with focus := Focus.item li ii } li ii

/-- `catButtons[i].focus()`. -/
def focusButton (p : Page) (i : Nat) : Page := { p with focus := Focus.catButton i }

/-- `catButtons[i].click()`: the click handler calls
`activateCategory(btn.dataset.category)`; an exception thrown in the handler
is reported by the host and `click()` returns. -/
def clickButton (toUpperCase : String → String) (p : Page) (i : Nat) : Page :=
  match p.catButtons[i]? with
  | some btn => activateCategory toUpperCase p btn.category
  | none => p

/-- The `keydown` handler of `.horizontal-nav`. -/
def horizontalNavKeydown (toUpperCase : String → String) (p : Page) (key : String) : Page :=
  if !p.horizontalNav then p else
  match p.catButtons.findIdx? (fun b => b.active) with
  | none => p
  | some currentIndex =>
    if key = "ArrowRight" then
      let nextIndex := (currentIndex + 1) % p.catButtons.length
      clickButton toUpperCase (focusButton p nextIndex) nextIndex
    else if key = "ArrowLeft" then
      let prevIndex :=
        (((currentIndex : Int) - 1 + (p.catButtons.length : Int)) % (p.catButtons.length : Int)).toNat
      clickButton toUpperCase (focusButton p prevIndex) prevIndex
    else if key = "ArrowDown" then
      match p.verticalLists.findIdx? (fun l => l.active) with
      | none => p
      | some li =>
        match p.verticalLists[li]? with
        | none => p
        | some activeList => if activeList.items.isEmpty then p else focusItem p li 0
    else if key = "Home" then
      clickButton toUpperCase (focusButton p 0) 0
    else if key = "End" then
      let last := p.catButtons.length - 1
      clickButton toUpperCase (focusButton p last) last
    else p

/-- The `keydown` handler of vertical list `li`; `target` is the index of
`e.target.closest(".vn-item")` among the list's items, `none` when the event
target is not inside an item. -/
def verticalListKeydown (p : Page) (li : Nat) (target : Option Nat) (key : String) : Page :=
  match p.verticalLists[li]?, target with
  | some list, some j =>
    if list.items.length ≤ j then p
    else if key = "ArrowDown" then
      -- next = item.nextElementSibling
      if j + 1 < list.items.length then focusItem p li (j + 1) else p
    else if key = "ArrowUp" then
      -- prev = item.previousElementSibling
      if 0 < j then focusItem p li (j - 1)
      else
        -- Move focus back to active category
        match p.catButtons.findIdx? (fun b => b.active) with
        | some activeBtn => focusButton p activeBtn
        | none => p
    else if key = "Home" then
      focusItem p li 0
    else if key = "End" then
      focusItem p li (list.items.length - 1)
    else p
  | _, _ => p

/-! ## Timeline expand / collapse -/

/-- Lines 266-272 of `toggleTimelineItem` on the items of the list: every
expanded item other than `item` loses `expanded`, then `item` gets
`!wasExpanded`.  Items are identified by their position. -/
def toggleItems (items : List Item) (item : Nat) : List Item :=
  let wasExpanded := match items[item]? with
    | some it => it.expanded
    | none => false
  -- collapse others
  let items := items.mapIdx (fun k el =>
    if el.expanded && k != item then { el with expanded := false } else el)
  -- toggle this one
  items.modify (fun it => { it with expanded := !wasExpanded }) item

/-- `toggleTimelineItem(list, item)` for item `ii` of list `li`. -/
def toggleTimelineItem (p : Page) (li ii : Nat) : Page :=
  match p.verticalLists[li]? with
  | none => p
  | some list =>
    match list.items[ii]? with
    | none => p
    | some item =>
      let wasExpanded := item.expanded
      let list1 := { list with items := toggleItems list.items ii }
      let p := { p with verticalLists := p.verticalLists.set li list1 }
      -- Update center label based on state
      let category := list.category
      let title := (match item.titleT with
        | some t => some t
        | none => item.title).map jsTrim
      let desc := orElse (item.sub.map jsTrim) ""
      setCenterLabel p (orElse title "") category (if !wasExpanded then desc else "")

/-- The `click` handler of timeline list `li`, for a click inside item `ii`. -/
def timelineClick (p : Page) (li ii : Nat) : Page :=
  match p.verticalLists[li]? with
  | some list => if list.timeline then toggleTimelineItem p li ii else p
  | none => p

/-- The `keydown` handler of timeline list `li`. -/
def timelineKeydown (p : Page) (li : Nat) (target : Option Nat) (key : String) : Page :=
  match p.verticalLists[li]?, target with
  | some list, some ii =>
    if list.timeline && (key = "Enter" || key = " ") then toggleTimelineItem p li ii else p
  | _, _ => p

/-- The items of vertical list `li` (empty when there is no such list). -/
def Page.itemsOf (p : Page) (li : Nat) : List Item :=
  match p.verticalLists[li]? with
  | some list => list.items
  | none => []

/-- How many items of a list carry `expanded`. -/
def expandedCount (items : List Item) : Nat := items.countP (fun it => it.expanded)

/-! ## Star-field simulator

The part of the script after the two early returns: the `#particles` canvas
and its 2d context exist.  Real-valued quantities are exact rationals; decimal
literals of the source stand for the rationals they spell.  The canvas is the
list of discs painted on it since it was last cleared; `clearRect(0, 0, width,
height)` under the `dpr` transform covers the whole bitmap.  A frame callback
leaves the host's queue when it is run, before its body executes.
-/

/-- What the simulator takes from the host: the successive results of
`Math.random()` and the function `Math.sin`. -/
structure Host where
  random : Nat → ℚ
  sin : ℚ → ℚ

/-- `Math.PI`, the double nearest to π, as the rational it is. -/
def MathPI : ℚ := 884279719003555 / 281474976710656

/-- One entry of `stars`. -/
structure Star where
  x : ℚ
  y : ℚ
  r : ℚ
  vx : ℚ
  vy : ℚ
  phase : ℚ
  tw : ℚ
  baseAlpha : ℚ
  deriving DecidableEq

/-- A disc painted by `ctx.arc` / `ctx.fill` with `globalAlpha = alpha`. -/
structure Disc where
  x : ℚ
  y : ℚ
  r : ℚ
  alpha : ℚ
  deriving DecidableEq

/-- The simulator's variables together with the host state it drives. -/
structure Sim where
  reduceMotion : Bool
  dpr : ℚ
  width : Nat
  height : Nat
  /-- `canvas.width`. -/
  canvasWidth : Nat
  /-- `canvas.height`. -/
  canvasHeight : Nat
  stars : List Star
  rafId : Nat
  lastTs : ℚ
  /-- How many times `Math.random()` has been called. -/
  randomCalls : Nat
  /-- The last handle `requestAnimationFrame` returned (handles are 1, 2, ...). -/
  rafCounter : Nat
  /-- Handles of the frame callbacks requested and neither run nor cancelled. -/
  scheduled : List Nat
  /-- The discs on the canvas. -/
  canvas : List Disc

/-- `randomRange(min, max)` on the `k`-th random number. -/
def randomRange (host : Host) (k : Nat) (min max : ℚ) : ℚ :=
  host.random k * (max - min) + min

/-- The star built by one call of the `map` callback of `initStars`, drawing the
random numbers `k`, ..., `k + 7` in the order the properties are evaluated. -/
def newStar (host : Host) (width height : Nat) (k : Nat) : Star where
  x := host.random k * width
  y := host.random (k + 1) * height
  r := randomRange host (k + 2) (6 / 10) (18 / 10)
  vx := randomRange host (k + 3) 4 24 / 60
  vy := randomRange host (k + 4) (-6) 6 / 60
  phase := host.random (k + 5) * MathPI * 2
  tw := randomRange host (k + 6) (4 / 10) 1
  baseAlpha := randomRange host (k + 7) (25 / 100) (65 / 100)

/-- `initStars()`. -/
def initStars (host : Host) (s : Sim) : Sim :=
  let area := s.width * s.height
  -- Density scales with area; cap for perf
  let count := max 60 (min 220 (area / 12000 + 60))
  { s with
    stars := (List.range count).map (fun i => newStar host s.width s.height (s.randomCalls + 8 * i))
    randomCalls := s.randomCalls + 8 * count }

/-- `Math.max(1, Math.min(window.devicePixelRatio || 1, 2))`. -/
def clampDpr (devicePixelRatio : ℚ) : ℚ :=
  max 1 (min (if devicePixelRatio ≠ 0 then devicePixelRatio else 1) 2)

/-- `resize()` for the given `window.innerWidth`, `window.innerHeight` (integers,
so `Math.floor` leaves them as they are) and `window.devicePixelRatio`;
assigning `canvas.width` resets the bitmap. -/
def resize (host : Host) (s : Sim) (innerWidth innerHeight : Nat) (devicePixelRatio : ℚ) : Sim :=
  let dpr := clampDpr devicePixelRatio
  let width := innerWidth
  let height := innerHeight
  initStars host
    { s with
      dpr := dpr, width := width, height := height
      canvasWidth := (Rat.floor (width * dpr)).toNat
      canvasHeight := (Rat.floor (height * dpr)).toNat
      canvas := [] }

/-- `window.requestAnimationFrame(frame)`: a fresh non-zero handle is queued. -/
def requestAnimationFrame (s : Sim) : Sim × Nat :=
  ({ s with rafCounter := s.rafCounter + 1, scheduled := s.scheduled ++ [s.rafCounter + 1] },
    s.rafCounter + 1)

/-- `cancelAnimationFrame(handle)`. -/
def cancelAnimationFrame (s : Sim) (handle : Nat) : Sim :=
  { s with scheduled := s.scheduled.filter (fun h => h != handle) }

/-- The `dt` of `frame`: `lastTs` is replaced by `ts` when it is `0`, then
`Math.min(0.05, (ts - lastTs) / 1000)`. -/
def frameDt (lastTs ts : ℚ) : ℚ :=
  let lastTs := if lastTs = 0 then ts else lastTs
  min (5 / 100) ((ts - lastTs) / 1000)

/-- The position of a star after the two `+=` of the loop body, before wrapping. -/
def advance (dt : ℚ) (s : Star) : ℚ × ℚ :=
  (s.x + s.vx * (dt * 60), s.y + s.vy * (dt * 60))

/-- One iteration of the star loop of `frame`: the updated star. -/
def stepStar (width height : Nat) (dt : ℚ) (s : Star) : Star :=
  let x := s.x + s.vx * (dt * 60)
  let y := s.y + s.vy * (dt * 60)
  let x := if x > (width : ℚ) + 10 then -10 else x
  let y := if y > (height : ℚ) + 10 then -10 else y
  let y := if y < -10 then (height : ℚ) + 10 else y
  { s with x := x, y := y, phase := s.phase + s.tw * dt }

/-- One iteration of the star loop of `frame`: the disc painted for the updated star. -/
def starDisc (host : Host) (s : Star) : Disc :=
  let twinkle := 5 / 10 + 5 / 10 * host.sin s.phase
  let alpha := min 1 (max 0 (s.baseAlpha + twinkle * (35 / 100)))
  ⟨s.x, s.y, s.r, alpha⟩

/-- `frame(ts)`, run as a frame callback (its own handle has left the queue). -/
def frame (host : Host) (s : Sim) (ts : ℚ) : Sim :=
  let (s, id) := requestAnimationFrame s
  let s := { s with rafId := id }
  if s.width = 0 ∨ s.height = 0 then s else
  let dt := frameDt s.lastTs ts
  let stars := s.stars.map (stepStar s.width s.height dt)
  { s with lastTs := ts, stars := stars, canvas := stars.map (starDisc host) }

/-- `startParticles()`. -/
def startParticles (s : Sim) : Sim :=
  if s.reduceMotion then s else
  let s := if s.rafId ≠ 0 then cancelAnimationFrame s s.rafId else s
  let s := { s with lastTs := 0 }
  let (s, id) := requestAnimationFrame s
  { s with rafId := id }

/-- `stopParticles()`. -/
def stopParticles (s : Sim) : Sim :=
  let s := if s.rafId ≠ 0 then cancelAnimationFrame s s.rafId else s
  let s := { s with rafId := 0 }
  if s.width ≠ 0 ∧ s.height ≠ 0 then { s with canvas := [] } else s

/-- The `change` listener of `rmQuery` (registered through `addEventListener`
or `addListener`), called with `e.matches`. -/
def rmChange (s : Sim) (rmMatches : Bool) : Sim :=
  let s := { s with reduceMotion := rmMatches }
  if s.reduceMotion then stopParticles s else startParticles s

/-- The simulator part of the script run at load: the variable initialisers,
then `resize()` and, unless reduced motion is set, `startParticles()`. -/
def bootstrap (host : Host) (rmMatches : Bool) (innerWidth innerHeight : Nat)
    (devicePixelRatio : ℚ) : Sim :=
  let s : Sim :=
    { reduceMotion := rmMatches, dpr := clampDpr devicePixelRatio, width := 0, height := 0
      canvasWidth := 0, canvasHeight := 0, stars := [], rafId := 0, lastTs := 0
      randomCalls := 0, rafCounter := 0, scheduled := [], canvas := [] }
  let s := resize host s innerWidth innerHeight devicePixelRatio
  if !s.reduceMotion then startParticles s else s

/-- What can happen to the simulator after load. -/
inductive Event where
  | rmChange (rmMatches : Bool)
  | frameCallback (handle : Nat) (ts : ℚ)
  | resize (innerWidth innerHeight : Nat) (devicePixelRatio : ℚ)
  | startParticles
  | stopParticles

/-- One step of the simulator: `none` when the event cannot occur, which is the
case exactly for a frame callback whose handle is not scheduled. -/
def step (host : Host) (s : Sim) : Event → Option Sim
  | Event.rmChange m => some (rmChange s m)
  | Event.frameCallback handle ts =>
    if handle ∈ s.scheduled then
      some (frame host { s with scheduled := s.scheduled.filter (fun h => h != handle) } ts)
    else none
  | Event.resize w h d => some (resize host s w h d)
  | Event.startParticles => some (startParticles s)
  | Event.stopParticles => some (stopParticles s)

/-- The states the simulator can be in: the state after load, and whatever a
step leads to from a reachable state. -/
inductive Reachable (host : Host) : Sim → Prop where
  | boot (rmMatches : Bool) (innerWidth innerHeight : Nat) (devicePixelRatio : ℚ) :
      Reachable host (bootstrap host rmMatches innerWidth innerHeight devicePixelRatio)
  | next (s s1 : Sim) (e : Event) : Reachable host s → step host s e = some s1 →
      Reachable host s1

/-- A sequence of `activateCategory` calls, in order. -/
def activateAll (toUpperCase : String → String) (p : Page) (cs : List (Option String)) :
    Page :=
  cs.foldl (activateCategory toUpperCase) p

/-- A sequence of `toggleTimelineItem(list, item)` calls on list `li`, in order. -/
def toggleAll (p : Page) (li : Nat) (items : List Nat) : Page :=
  items.foldl (fun q ii => toggleTimelineItem q li ii) p

/-! ## Sample data -/

/-- A page with three categories: a plain list of two items under `video`, an
empty list under `music`, and a timeline list of two items under `network`. -/
def samplePage : Page :=
  { catButtons :=
      [⟨some "video", true, some "true", some "Video"⟩,
       ⟨some "music", false, some "false", some " Music "⟩,
       ⟨some "network", false, some "false", some "Skills"⟩]
    verticalLists :=
      [⟨some "video", false, true, false,
          [⟨some "Reel", none, some "Latest cut", false⟩, ⟨some "Talks", none, none, false⟩]⟩,
       ⟨some "music", false, false, true, []⟩,
       ⟨some "network", true, false, true,
          [⟨some "2021 Engineer", some "Engineer", some "Built things", false⟩,
           ⟨some "2018 Student", some "Student", some "Studied", true⟩]⟩]
    horizontalNav := true
    centerLabelEl := true
    centerLabel := none
    timelineMode := false
    skillsMode := false
    focus := Focus.elsewhere }

/-- A page whose only category `video` has a plain list of two items: the first
has a title and no `.sub`, the second has both. -/
def orphanSubPage : Page :=
  { catButtons := [⟨some "video", false, some "false", some "Video"⟩]
    verticalLists :=
      [⟨some "video", false, false, true,
          [⟨some "Alpha", none, none, false⟩, ⟨some "Beta", none, some "About beta", false⟩]⟩]
    horizontalNav := true
    centerLabelEl := true
    centerLabel := none
    timelineMode := false
    skillsMode := false
    focus := Focus.elsewhere }

/-- A page whose only category `music` has an empty list and a button whose
`.cat-label` element exists with empty text. -/
def blankLabelPage : Page :=
  { catButtons := [⟨some "music", false, some "false", some ""⟩]
    verticalLists := [⟨some "music", false, false, true, []⟩]
    horizontalNav := true
    centerLabelEl := true
    centerLabel := none
    timelineMode := false
    skillsMode := false
    focus := Focus.elsewhere }

/-- A page like `blankLabelPage` whose category identifier contains a double
quote. -/
def quotedIdPage : Page :=
  { catButtons := [⟨some "mu\"sic", false, some "false", some "Music"⟩]
    verticalLists := [⟨some "mu\"sic", false, false, true, []⟩]
    horizontalNav := true
    centerLabelEl := true
    centerLabel := none
    timelineMode := false
    skillsMode := false
    focus := Focus.elsewhere }

/-- A host whose random numbers are all `1/2` and whose sine is constantly `0`. -/
def sampleHost : Host := ⟨fun _ => 1 / 2, fun _ => 0⟩

/-- A running simulator on an 800 by 600 viewport with two stars near the
lower right corner. -/
def sampleSim : Sim :=
  { reduceMotion := false, dpr := 1, width := 800, height := 600
    canvasWidth := 800, canvasHeight := 600
    stars := [⟨809, 609, 1, 2 / 5, 1 / 10, 0, 1 / 2, 1 / 2⟩, ⟨3, -10, 1, 1 / 5, -1 / 10, 0, 1 / 2, 1 / 2⟩]
    rafId := 1, lastTs := 1000, randomCalls := 16, rafCounter := 1, scheduled := [1], canvas := [] }

/-- The simulator invariant: at most the frame named by `rafId` is scheduled,
nothing is scheduled while reduced motion is set, and a canvas of zero width or
height carries no disc. -/
def SimInv (s : Sim) : Prop :=
  (s.scheduled = [] ∨ (s.rafId ≠ 0 ∧ s.scheduled = [s.rafId])) ∧
  (s.reduceMotion = true → s.rafId = 0 ∧ s.scheduled = []) ∧
  ((s.width = 0 ∨ s.height = 0) → s.canvas = [])

/-! # Theorems -/

/-! ## Clock -/

theorem pad_eq_specTwoDigits (n : Nat) (h : n < 60) : pad n = specTwoDigits n := by
  interval_cases n <;> decide

theorem specHour12_range (h : Nat) : 1 ≤ specHour12 h ∧ specHour12 h ≤ 12 := by
  unfold specHour12
  split <;> omega

theorem noLeadingZero_repr (n : Nat) (h1 : 1 ≤ n) (h2 : n ≤ 31) :
    noLeadingZero (Nat.repr n) = true := by
  interval_cases n <;> decide

/-- C3: for a date-time with month number `getMonth + 1` in 1..12, hour in 0..23
and minute in 0..59, `formatClock` returns exactly the text `"m/d H:MM AP"`:
`m`, `d`, `H` in decimal without leading zeros, `H` equal to 12 when
`h mod 12 = 0` and to `h mod 12` otherwise (hence in 1..12), `MM` the minute as
exactly two decimal digits, `AP` equal to `"AM"` below hour 12 and `"PM"` from
12 on; January 5 at 00:00 gives `"1/5 12:00 AM"` and at 13:05 `"1/5 1:05 PM"`. -/
theorem formatClock_text (d : JsDate) (hm : d.getMonth < 12) (hh : d.getHours < 24)
    (hmi : d.getMinutes < 60) :
    formatClock d = specClockText (d.getMonth + 1) d.getDate d.getHours d.getMinutes ∧
    1 ≤ specHour12 d.getHours ∧ specHour12 d.getHours ≤ 12 ∧
    (specTwoDigits d.getMinutes).length = 2 ∧
    noLeadingZero (Nat.repr (d.getMonth + 1)) = true ∧
    noLeadingZero (Nat.repr (specHour12 d.getHours)) = true ∧
    (1 ≤ d.getDate → d.getDate ≤ 31 → noLeadingZero (Nat.repr d.getDate) = true) ∧
    formatClock ⟨0, 5, 0, 0⟩ = "1/5 12:00 AM" ∧
    formatClock ⟨0, 5, 13, 5⟩ = "1/5 1:05 PM" := by
  have hr := specHour12_range d.getHours
  refine ⟨?_, hr.1, hr.2, rfl, noLeadingZero_repr _ (by omega) (by omega),
    noLeadingZero_repr _ hr.1 (by omega), fun h1 h2 => noLeadingZero_repr _ h1 h2,
    by decide, by decide⟩
  have hampm : (if d.getHours ≥ 12 then "PM" else "AM") = specMeridiem d.getHours := by
    unfold specMeridiem
    by_cases h : d.getHours < 12
    · rw [if_pos h, if_neg (by omega)]
    · rw [if_neg h, if_pos (by omega)]
  have hhour : (if d.getHours % 12 ≠ 0 then d.getHours % 12 else 12) = specHour12 d.getHours := by
    unfold specHour12
    by_cases h : d.getHours % 12 = 0
    · rw [if_pos h, if_neg (by simp [h])]
    · rw [if_neg h, if_pos h]
  simp only [formatClock, specClockText, hampm, hhour, pad_eq_specTwoDigits _ hmi]
  rfl

theorem formatClock_text_witness :
    (⟨0, 5, 13, 5⟩ : JsDate).getMonth < 12 ∧ (⟨0, 5, 13, 5⟩ : JsDate).getHours < 24 ∧
    (⟨0, 5, 13, 5⟩ : JsDate).getMinutes < 60 ∧
    formatClock ⟨0, 5, 13, 5⟩ = specClockText 1 5 13 5 :=
  ⟨by decide, by decide, by decide, (formatClock_text ⟨0, 5, 13, 5⟩ (by decide) (by decide) (by decide)).1⟩

/-! ## Star count -/

theorem starCount_range (w h : Nat) : 60 ≤ starCount w h ∧ starCount w h ≤ 220 := by
  simp only [starCount]
  constructor <;> omega

theorem starCount_mono (w1 h1 w2 h2 : Nat) (h : w1 * h1 ≤ w2 * h2) :
    starCount w1 h1 ≤ starCount w2 h2 := by
  unfold starCount
  have := Nat.div_le_div_right (c := 12000) h
  simp only
  omega

theorem initStars_length (host : Host) (s : Sim) :
    (initStars host s).stars.length = starCount s.width s.height := by
  simp [initStars, starCount]

/-- C4: for all viewport widths and heights the number of stars `initStars`
creates (here through `resize`, which sets `width` and `height` first) equals
`max(60, min(220, floor(width*height/12000) + 60))`, lies between 60 and 220
inclusive, and is monotonic non-decreasing in the viewport area. -/
theorem initStars_count (host : Host) (s : Sim) (w h : Nat) (d : ℚ) :
    (resize host s w h d).stars.length = max 60 (min 220 (w * h / 12000 + 60)) ∧
    (initStars host s).stars.length = max 60 (min 220 (s.width * s.height / 12000 + 60)) ∧
    60 ≤ (resize host s w h d).stars.length ∧ (resize host s w h d).stars.length ≤ 220 ∧
    ∀ (s2 : Sim) (w2 h2 : Nat) (d2 : ℚ), w * h ≤ w2 * h2 →
      (resize host s w h d).stars.length ≤ (resize host s2 w2 h2 d2).stars.length := by
  have key : ∀ (t : Sim) (a b : Nat) (e : ℚ),
      (resize host t a b e).stars.length = starCount a b := by
    intro t a b e
    simp [resize, initStars_length]
  refine ⟨by rw [key]; rfl, by rw [initStars_length]; rfl, ?_, ?_, ?_⟩
  · rw [key]; exact (starCount_range w h).1
  · rw [key]; exact (starCount_range w h).2
  · intro s2 w2 h2 d2 hle
    rw [key, key]
    exact starCount_mono w h w2 h2 hle

/-! ## Frame step -/

theorem frameDt_le (lastTs ts : ℚ) : frameDt lastTs ts ≤ 5 / 100 := by
  unfold frameDt
  exact min_le_left _ _

theorem stepStar_x (w h : Nat) (dt : ℚ) (p : Star) :
    (stepStar w h dt p).x = if (advance dt p).1 > (w : ℚ) + 10 then -10 else (advance dt p).1 := rfl

theorem stepStar_bounds (w h : Nat) (dt : ℚ) (p : Star) :
    (stepStar w h dt p).x ≤ (w : ℚ) + 10 ∧ -10 ≤ (stepStar w h dt p).y ∧
    (stepStar w h dt p).y ≤ (h : ℚ) + 10 := by
  have hw : (0 : ℚ) ≤ (w : ℚ) := Nat.cast_nonneg w
  have hh : (0 : ℚ) ≤ (h : ℚ) := Nat.cast_nonneg h
  simp only [stepStar]
  refine ⟨?_, ?_, ?_⟩
  · split_ifs <;> linarith
  · split_ifs <;> linarith
  · split_ifs <;> linarith

theorem stepStar_wrap (w h : Nat) (dt : ℚ) (p : Star) :
    ((advance dt p).1 > (w : ℚ) + 10 → (stepStar w h dt p).x = -10) ∧
    ((advance dt p).2 > (h : ℚ) + 10 → (stepStar w h dt p).y = -10) ∧
    ((advance dt p).2 < -10 → (stepStar w h dt p).y = (h : ℚ) + 10) := by
  have hh : (0 : ℚ) ≤ (h : ℚ) := Nat.cast_nonneg h
  simp only [stepStar, advance]
  refine ⟨?_, ?_, ?_⟩
  · intro hx
    rw [if_pos hx]
  · intro hy
    rw [if_pos hy, if_neg (lt_irrefl _)]
  · intro hy
    have hn : ¬ (p.y + p.vy * (dt * 60) > (h : ℚ) + 10) := by linarith
    rw [if_neg hn, if_pos hy]

theorem frame_stars (host : Host) (s : Sim) (ts : ℚ) (hw : 0 < s.width) (hh : 0 < s.height) :
    (frame host s ts).stars = s.stars.map (stepStar s.width s.height (frameDt s.lastTs ts)) := by
  have h1 : ¬ (s.width = 0 ∨ s.height = 0) := by omega
  simp [frame, requestAnimationFrame, h1]

/-- C10: for positive `width` and `height`, any particle list and any pair of
timestamps (`lastTs`, `ts`), one call of `frame` uses an elapsed time of at most
0.05 s, replaces every particle by its stepped version, and afterwards every
particle has `x ≤ width + 10` and `-10 ≤ y ≤ height + 10`; a particle whose
advanced `x` exceeds `width + 10` is at `x = -10`, one whose advanced `y`
exceeds `height + 10` is at `y = -10`, and one whose advanced `y` is below
`-10` is at `y = height + 10`. -/
theorem frame_wraps (host : Host) (s : Sim) (ts : ℚ) (hw : 0 < s.width) (hh : 0 < s.height) :
    frameDt s.lastTs ts ≤ 5 / 100 ∧
    (frame host s ts).stars = s.stars.map (stepStar s.width s.height (frameDt s.lastTs ts)) ∧
    (∀ p ∈ (frame host s ts).stars,
      p.x ≤ (s.width : ℚ) + 10 ∧ -10 ≤ p.y ∧ p.y ≤ (s.height : ℚ) + 10) ∧
    (∀ p ∈ s.stars,
      ((advance (frameDt s.lastTs ts) p).1 > (s.width : ℚ) + 10 →
        (stepStar s.width s.height (frameDt s.lastTs ts) p).x = -10) ∧
      ((advance (frameDt s.lastTs ts) p).2 > (s.height : ℚ) + 10 →
        (stepStar s.width s.height (frameDt s.lastTs ts) p).y = -10) ∧
      ((advance (frameDt s.lastTs ts) p).2 < -10 →
        (stepStar s.width s.height (frameDt s.lastTs ts) p).y = (s.height : ℚ) + 10)) := by
  refine ⟨frameDt_le _ _, frame_stars host s ts hw hh, ?_, ?_⟩
  · intro p hp
    rw [frame_stars host s ts hw hh, List.mem_map] at hp
    obtain ⟨q, _, rfl⟩ := hp
    exact stepStar_bounds _ _ _ q
  · intro p _
    exact stepStar_wrap _ _ _ p

theorem frame_wraps_witness :
    0 < sampleSim.width ∧ 0 < sampleSim.height ∧
    ∀ p ∈ (frame sampleHost sampleSim 1016).stars,
      p.x ≤ (sampleSim.width : ℚ) + 10 ∧ -10 ≤ p.y ∧ p.y ≤ (sampleSim.height : ℚ) + 10 :=
  ⟨by decide, by decide, (frame_wraps sampleHost sampleSim 1016 (by decide) (by decide)).2.2.1⟩

/-! ## Reduced motion -/

theorem simInv_resize (host : Host) (s : Sim) (w h : Nat) (d : ℚ) (hs : SimInv s) :
    SimInv (resize host s w h d) := by
  obtain ⟨h1, h2, _⟩ := hs
  exact ⟨h1, h2, fun _ => rfl⟩

theorem stopParticles_fields (s : Sim) :
    (stopParticles s).rafId = 0 ∧
    (stopParticles s).scheduled =
      (if s.rafId ≠ 0 then s.scheduled.filter (fun h => h != s.rafId) else s.scheduled) ∧
    (stopParticles s).canvas = (if s.width ≠ 0 ∧ s.height ≠ 0 then [] else s.canvas) ∧
    (stopParticles s).reduceMotion = s.reduceMotion ∧
    (stopParticles s).width = s.width ∧ (stopParticles s).height = s.height := by
  by_cases h1 : s.rafId = 0 <;> by_cases h2 : s.width = 0 <;> by_cases h3 : s.height = 0 <;>
    simp [stopParticles, cancelAnimationFrame, h1, h2, h3]

theorem simInv_stopParticles (s : Sim) (hs : SimInv s) :
    SimInv (stopParticles s) ∧ (stopParticles s).rafId = 0 ∧ (stopParticles s).scheduled = [] ∧
    (stopParticles s).canvas = [] ∧ (stopParticles s).reduceMotion = s.reduceMotion := by
  obtain ⟨h1, h2, h3⟩ := hs
  obtain ⟨f1, f2, f3, f4, f5, f6⟩ := stopParticles_fields s
  have hsched : (stopParticles s).scheduled = [] := by
    rw [f2]
    rcases h1 with h1 | ⟨hne, h1⟩
    · split_ifs <;> simp [h1]
    · rw [if_pos hne, h1]; simp
  have hcanvas : (stopParticles s).canvas = [] := by
    rw [f3]
    split_ifs with hb
    · rfl
    · exact h3 (by omega)
  exact ⟨⟨Or.inl hsched, fun _ => ⟨f1, hsched⟩, fun _ => hcanvas⟩, f1, hsched, hcanvas, f4⟩

theorem startParticles_running (s : Sim) (hs : SimInv s) (hrm : s.reduceMotion = false) :
    (startParticles s).rafId ≠ 0 ∧ (startParticles s).scheduled = [(startParticles s).rafId] ∧
    (startParticles s).reduceMotion = false ∧ (startParticles s).canvas = s.canvas ∧
    (startParticles s).width = s.width ∧ (startParticles s).height = s.height := by
  obtain ⟨h1, _, _⟩ := hs
  unfold startParticles requestAnimationFrame cancelAnimationFrame
  simp only [hrm, Bool.false_eq_true, if_false]
  rcases h1 with h1 | ⟨hne, h1⟩
  · split_ifs <;> simp [h1, hrm]
  · simp [hne, h1, hrm]

theorem simInv_startParticles (s : Sim) (hs : SimInv s) : SimInv (startParticles s) := by
  cases hrm : s.reduceMotion
  · obtain ⟨a, b, c, d, e, f⟩ := startParticles_running s hs hrm
    refine ⟨Or.inr ⟨a, b⟩, fun h => ?_, fun h => ?_⟩
    · rw [c] at h; cases h
    · rw [d]; exact hs.2.2 (by rw [e, f] at h; exact h)
  · have : startParticles s = s := by simp [startParticles, hrm]
    rw [this]; exact hs

theorem simInv_frameCallback (host : Host) (s : Sim) (handle : Nat) (ts : ℚ) (hs : SimInv s)
    (hmem : handle ∈ s.scheduled) :
    SimInv (frame host { s with scheduled := s.scheduled.filter (fun h => h != handle) } ts) ∧
    (frame host { s with scheduled := s.scheduled.filter (fun h => h != handle) } ts).reduceMotion
      = s.reduceMotion ∧ s.reduceMotion = false := by
  obtain ⟨h1, h2, h3⟩ := hs
  have hrm : s.reduceMotion = false := by
    cases hr : s.reduceMotion
    · rfl
    · rw [(h2 hr).2] at hmem; cases hmem
  rcases h1 with h1 | ⟨hne, h1⟩
  · rw [h1] at hmem; cases hmem
  · have hh : handle = s.rafId := by rw [h1] at hmem; simpa using hmem
    subst hh
    have hf : s.scheduled.filter (fun h => h != s.rafId) = [] := by rw [h1]; simp
    rw [hf]
    by_cases hz : s.width = 0 ∨ s.height = 0
    · refine ⟨⟨Or.inr ?_, ?_, ?_⟩, ?_, hrm⟩
      · simp [frame, requestAnimationFrame, hz]
      · simp [frame, requestAnimationFrame, hz, hrm]
      · intro _
        simpa [frame, requestAnimationFrame, hz] using h3 hz
      · simp [frame, requestAnimationFrame, hz]
    · refine ⟨⟨Or.inr ?_, ?_, ?_⟩, ?_, hrm⟩
      · simp [frame, requestAnimationFrame, hz]
      · simp [frame, requestAnimationFrame, hz, hrm]
      · intro hz2
        simp [frame, requestAnimationFrame, hz] at hz2
      · simp [frame, requestAnimationFrame, hz]

theorem simInv_rmChange (s : Sim) (m : Bool) (hs : SimInv s) : SimInv (rmChange s m) := by
  have hs1 : SimInv { s with reduceMotion := false } :=
    ⟨hs.1, fun h => (by cases h), hs.2.2⟩
  cases m
  · simpa [rmChange] using simInv_startParticles _ hs1
  · have h0 : SimInv (stopParticles { s with reduceMotion := true }) := by
      obtain ⟨h1, _, h3⟩ := hs
      obtain ⟨f1, f2, f3, f4, f5, f6⟩ := stopParticles_fields { s with reduceMotion := true }
      have hsched : (stopParticles { s with reduceMotion := true }).scheduled = [] := by
        rw [f2]
        rcases h1 with h1 | ⟨hne, h1⟩
        · split_ifs <;> simp [h1]
        · simp [hne, h1]
      refine ⟨Or.inl hsched, fun _ => ⟨f1, hsched⟩, fun hz => ?_⟩
      rw [f3]
      split_ifs with hb
      · rfl
      · exact h3 (by simp only at hb; omega)
    simpa [rmChange] using h0

theorem simInv_bootstrap (host : Host) (m : Bool) (w h : Nat) (d : ℚ) :
    SimInv (bootstrap host m w h d) := by
  have h0 : SimInv (resize host
      { reduceMotion := m, dpr := clampDpr d, width := 0, height := 0
        canvasWidth := 0, canvasHeight := 0, stars := [], rafId := 0, lastTs := 0
        randomCalls := 0, rafCounter := 0, scheduled := [], canvas := [] } w h d) := by
    apply simInv_resize
    exact ⟨Or.inl rfl, fun _ => ⟨rfl, rfl⟩, fun _ => rfl⟩
  unfold bootstrap
  simp only
  split_ifs
  · exact simInv_startParticles _ h0
  · exact h0

theorem simInv_step (host : Host) (s s1 : Sim) (e : Event) (hs : SimInv s)
    (hstep : step host s e = some s1) : SimInv s1 := by
  cases e with
  | rmChange m =>
    simp only [step, Option.some.injEq] at hstep
    subst hstep; exact simInv_rmChange s m hs
  | frameCallback handle ts =>
    simp only [step] at hstep
    split_ifs at hstep with hmem
    simp only [Option.some.injEq] at hstep
    subst hstep; exact (simInv_frameCallback host s handle ts hs hmem).1
  | resize w h d =>
    simp only [step, Option.some.injEq] at hstep
    subst hstep; exact simInv_resize host s w h d hs
  | startParticles =>
    simp only [step, Option.some.injEq] at hstep
    subst hstep; exact simInv_startParticles s hs
  | stopParticles =>
    simp only [step, Option.some.injEq] at hstep
    subst hstep; exact (simInv_stopParticles s hs).1

theorem simInv_of_reachable (host : Host) (s : Sim) (hr : Reachable host s) : SimInv s := by
  induction hr with
  | boot m w h d => exact simInv_bootstrap host m w h d
  | next s s1 e _ hstep ih => exact simInv_step host s s1 e ih hstep

theorem rmChange_true_eq (s : Sim) :
    rmChange s true = stopParticles { s with reduceMotion := true } := by
  simp [rmChange]

theorem rmChange_false_eq (s : Sim) :
    rmChange s false = startParticles { s with reduceMotion := false } := by
  simp [rmChange]

theorem resize_reduceMotion (host : Host) (s : Sim) (w h : Nat) (d : ℚ) :
    (resize host s w h d).reduceMotion = s.reduceMotion := rfl

/-- C5: in the simulator's step relation (load, reduced-motion change
notifications, callbacks of scheduled frames, resize, `startParticles`,
`stopParticles`) every reachable state with the reduced-motion flag set has
`rafId = 0` and no frame scheduled.  A change to reduced motion leaves the flag
set, `rafId = 0`, no frame scheduled (so no frame callback can run) and the
canvas cleared; from a state with the flag set every step other than a change
back keeps it so; and a following change to `false` leaves exactly the frame
named by the non-zero `rafId` scheduled. -/
theorem reducedMotion_no_frame (host : Host) (s : Sim) (hr : Reachable host s) :
    (s.reduceMotion = true → s.rafId = 0 ∧ s.scheduled = []) ∧
    ((rmChange s true).reduceMotion = true ∧ (rmChange s true).rafId = 0 ∧
      (rmChange s true).scheduled = [] ∧ (rmChange s true).canvas = [] ∧
      ∀ handle ts, step host (rmChange s true) (Event.frameCallback handle ts) = none) ∧
    (∀ e s1, s.reduceMotion = true → e ≠ Event.rmChange false → step host s e = some s1 →
      s1.reduceMotion = true ∧ s1.rafId = 0 ∧ s1.scheduled = []) ∧
    ((rmChange (rmChange s true) false).reduceMotion = false ∧
      (rmChange (rmChange s true) false).rafId ≠ 0 ∧
      (rmChange (rmChange s true) false).scheduled
        = [(rmChange (rmChange s true) false).rafId]) := by
  have hs : SimInv s := simInv_of_reachable host s hr
  have hstop : SimInv (rmChange s true) := simInv_rmChange s true hs
  obtain ⟨f1, f2, f3, f4, f5, f6⟩ := stopParticles_fields { s with reduceMotion := true }
  have hrm1 : (rmChange s true).reduceMotion = true := by rw [rmChange_true_eq, f4]
  have hsched1 : (rmChange s true).scheduled = [] := (hstop.2.1 hrm1).2
  have hcanvas1 : (rmChange s true).canvas = [] := by
    rw [rmChange_true_eq, f3]
    split_ifs with hb
    · rfl
    · exact hs.2.2 (by simp only at hb; omega)
  refine ⟨hs.2.1, ⟨hrm1, (hstop.2.1 hrm1).1, hsched1, hcanvas1, ?_⟩, ?_, ?_⟩
  · intro handle ts
    simp [step, hsched1]
  · intro e s1 hrm hne hstep
    have hinv1 : SimInv s1 := simInv_step host s s1 e hs hstep
    have hkeep : s1.reduceMotion = true := by
      cases e with
      | rmChange m =>
        cases m
        · exact absurd rfl hne
        · simp only [step, Option.some.injEq] at hstep
          subst hstep
          rw [rmChange_true_eq]
          exact (stopParticles_fields _).2.2.2.1
      | frameCallback handle ts =>
        simp [step, (hs.2.1 hrm).2] at hstep
      | resize w h d =>
        simp only [step, Option.some.injEq] at hstep
        subst hstep
        rw [resize_reduceMotion]; exact hrm
      | startParticles =>
        simp only [step, Option.some.injEq] at hstep
        subst hstep
        simp [startParticles, hrm]
      | stopParticles =>
        simp only [step, Option.some.injEq] at hstep
        subst hstep
        rw [(stopParticles_fields s).2.2.2.1]; exact hrm
    exact ⟨hkeep, hinv1.2.1 hkeep⟩
  · have hrun := startParticles_running { rmChange s true with reduceMotion := false }
      ⟨hstop.1, fun h => (by cases h), hstop.2.2⟩ rfl
    rw [rmChange_false_eq]
    exact ⟨hrun.2.2.1, hrun.1, hrun.2.1⟩

theorem reducedMotion_no_frame_witness :
    Reachable sampleHost (bootstrap sampleHost false 800 600 1) ∧
    (rmChange (bootstrap sampleHost false 800 600 1) true).scheduled = [] :=
  ⟨Reachable.boot false 800 600 1,
    (reducedMotion_no_frame sampleHost _ (Reachable.boot false 800 600 1)).2.1.2.2.1⟩

/-! ## Category activation -/

theorem setCenterLabel_fields (p : Page) (t : String) (c : Option String) (d : String) :
    (setCenterLabel p t c d).catButtons = p.catButtons ∧
    (setCenterLabel p t c d).verticalLists = p.verticalLists ∧
    (setCenterLabel p t c d).focus = p.focus ∧
    (setCenterLabel p t c d).horizontalNav = p.horizontalNav ∧
    (setCenterLabel p t c d).centerLabelEl = p.centerLabelEl := by
  unfold setCenterLabel
  split_ifs <;> exact ⟨rfl, rfl, rfl, rfl, rfl⟩

theorem activateCategory_catButtons (up : String → String) (p : Page) (cat : Option String) :
    (activateCategory up p cat).catButtons = p.catButtons.map (fun btn =>
      { btn with active := btn.category == cat
                 ariaSelected := some (if (btn.category == cat) = true then "true" else "false") }) := by
  unfold activateCategory
  simp only
  split
  · rfl
  · simp only [(setCenterLabel_fields _ _ _ _).1]

theorem activateCategory_verticalLists (up : String → String) (p : Page) (cat : Option String) :
    (activateCategory up p cat).verticalLists = p.verticalLists.map (fun list =>
      { list with active := list.category == cat, hidden := !(list.category == cat) }) := by
  unfold activateCategory
  simp only
  split
  · rfl
  · simp only [(setCenterLabel_fields _ _ _ _).2.1]

theorem activateCategory_focus (up : String → String) (p : Page) (cat : Option String) :
    (activateCategory up p cat).focus = p.focus := by
  unfold activateCategory
  simp only
  split
  · rfl
  · simp only [(setCenterLabel_fields _ _ _ _).2.2.1]

theorem activateCategory_categories (up : String → String) (p : Page) (cat : Option String) :
    (activateCategory up p cat).catButtons.map (fun b => b.category)
      = p.catButtons.map (fun b => b.category) ∧
    (activateCategory up p cat).verticalLists.map (fun l => l.category)
      = p.verticalLists.map (fun l => l.category) := by
  rw [activateCategory_catButtons, activateCategory_verticalLists]
  simp [List.map_map, Function.comp_def]

theorem activateAll_categories (up : String → String) (p : Page) (cs : List (Option String)) :
    (activateAll up p cs).catButtons.map (fun b => b.category)
      = p.catButtons.map (fun b => b.category) ∧
    (activateAll up p cs).verticalLists.map (fun l => l.category)
      = p.verticalLists.map (fun l => l.category) := by
  induction cs generalizing p with
  | nil => exact ⟨rfl, rfl⟩
  | cons c cs ih =>
    have h := ih (activateCategory up p c)
    have h2 := activateCategory_categories up p c
    simp only [activateAll, List.foldl_cons] at h ⊢
    exact ⟨h.1.trans h2.1, h.2.trans h2.2⟩

theorem countP_category_eq {α : Type} (f : α → Option String) (l1 l2 : List α) (c : Option String)
    (h : l1.map f = l2.map f) :
    l1.countP (fun a => f a == c) = l2.countP (fun a => f a == c) := by
  have e1 : l1.countP (fun a => f a == c) = (l1.map f).countP (fun x => x == c) := by
    rw [List.countP_map]; rfl
  have e2 : l2.countP (fun a => f a == c) = (l2.map f).countP (fun x => x == c) := by
    rw [List.countP_map]; rfl
  rw [e1, e2, h]

/-- C1: on a page where the identifier `c` is bound to exactly one category
button and exactly one vertical list, after any sequence of `activateCategory`
calls that ends with `activateCategory(c)` exactly one category button is
marked active, a button is active exactly when it is the one bound to `c`, its
`aria-selected` is `"true"` and that of every other button `"false"`; exactly
one vertical list is not hidden, and a list is not hidden exactly when it is the
one bound to `c`. -/
theorem activateCategory_exactly_one (up : String → String) (p : Page)
    (cs : List (Option String)) (c : String)
    (hb : p.catButtons.countP (fun b => b.category == some c) = 1)
    (hl : p.verticalLists.countP (fun l => l.category == some c) = 1) :
    (activateAll up p (cs ++ [some c])).catButtons.countP (fun b => b.active) = 1 ∧
    (∀ b ∈ (activateAll up p (cs ++ [some c])).catButtons,
      (b.active = true ↔ b.category = some c) ∧
      b.ariaSelected = some (if b.category = some c then "true" else "false")) ∧
    (activateAll up p (cs ++ [some c])).verticalLists.countP (fun l => !l.hidden) = 1 ∧
    (∀ l ∈ (activateAll up p (cs ++ [some c])).verticalLists,
      (l.hidden = false ↔ l.category = some c) ∧ (l.active = true ↔ l.category = some c)) ∧
    (activateAll up p (cs ++ [some c])).catButtons.countP (fun b => b.category == some c) = 1 ∧
    (activateAll up p (cs ++ [some c])).verticalLists.countP (fun l => l.category == some c)
      = 1 := by
  have hstep : activateAll up p (cs ++ [some c])
      = activateCategory up (activateAll up p cs) (some c) := by
    simp [activateAll, List.foldl_append]
  have hcat := activateAll_categories up p cs
  have hb1 : (activateAll up p cs).catButtons.countP (fun b => b.category == some c) = 1 := by
    rw [countP_category_eq (fun b : CatButton => b.category) _ _ (some c) hcat.1]; exact hb
  have hl1 : (activateAll up p cs).verticalLists.countP (fun l => l.category == some c) = 1 := by
    rw [countP_category_eq (fun l : VList => l.category) _ _ (some c) hcat.2]; exact hl
  rw [hstep]
  rw [activateCategory_catButtons, activateCategory_verticalLists]
  refine ⟨?_, ?_, ?_, ?_, ?_, ?_⟩
  · rw [List.countP_map]
    exact hb1
  · intro b hbm
    rw [List.mem_map] at hbm
    obtain ⟨b0, _, rfl⟩ := hbm
    simp
  · rw [List.countP_map]
    simpa [Function.comp_def] using hl1
  · intro l hlm
    rw [List.mem_map] at hlm
    obtain ⟨l0, _, rfl⟩ := hlm
    simp
  · rw [List.countP_map]
    exact hb1
  · rw [List.countP_map]
    exact hl1

theorem activateCategory_exactly_one_witness :
    samplePage.catButtons.countP (fun b => b.category == some "music") = 1 ∧
    samplePage.verticalLists.countP (fun l => l.category == some "music") = 1 ∧
    (activateAll asciiUpper samplePage ([some "network", some "video"] ++ [some "music"])).catButtons.countP
      (fun b => b.active) = 1 :=
  ⟨by decide, by decide,
    (activateCategory_exactly_one asciiUpper samplePage [some "network", some "video"] "music"
      (by decide) (by decide)).1⟩

/-! ## Horizontal category keys -/

theorem activate_active_iff (up : String → String) (q : Page) (k : Nat) (b : CatButton)
    (hk : q.catButtons[k]? = some b)
    (hnd : (q.catButtons.map (fun b => b.category)).Nodup) (j : Nat) (b1 : CatButton)
    (hj : (activateCategory up q b.category).catButtons[j]? = some b1) :
    (b1.active = true ↔ j = k) := by
  rw [activateCategory_catButtons, List.getElem?_map] at hj
  cases h0 : q.catButtons[j]? with
  | none => rw [h0] at hj; cases hj
  | some b0 =>
    rw [h0] at hj
    simp only [Option.map_some', Option.some.injEq] at hj
    subst hj
    simp only [beq_iff_eq]
    have hjlt : j < (q.catButtons.map (fun b => b.category)).length := by
      rw [List.length_map]; exact (List.getElem?_eq_some_iff.mp h0).1
    have e1 : (q.catButtons.map (fun b => b.category))[j]? = some b0.category := by
      rw [List.getElem?_map, h0]; rfl
    have e2 : (q.catButtons.map (fun b => b.category))[k]? = some b.category := by
      rw [List.getElem?_map, hk]; rfl
    constructor
    · intro he
      exact List.getElem?_inj hjlt hnd (by rw [e1, e2, he])
    · intro he
      subst he
      rw [h0] at hk
      cases hk
      rfl

theorem clickButton_focusButton (up : String → String) (p : Page) (k : Nat) (b : CatButton)
    (hk : p.catButtons[k]? = some b) :
    clickButton up (focusButton p k) k = activateCategory up (focusButton p k) b.category := by
  simp [clickButton, focusButton, hk]

theorem prevIndex_eq (i n : Nat) (hi : i < n) :
    (((i : Int) - 1 + (n : Int)) % (n : Int)).toNat = (i + n - 1) % n := by
  have h : ((i : Int) - 1 + (n : Int)) = ((i + n - 1 : Nat) : Int) := by omega
  rw [h, ← Int.natCast_mod, Int.toNat_natCast]

/-- C6: with the category buttons carrying distinct identifiers and the active
one at index `i` of `n`, `ArrowRight` on the horizontal control focuses and
clicks the button at index `(i + 1) mod n`, which activates its category and
leaves exactly that button active; `ArrowLeft` does the same for index
`(i - 1 + n) mod n`, written `(i + n - 1) mod n` on naturals.  From the last
category `ArrowRight` reaches index 0 and from the first `ArrowLeft` reaches
index `n - 1`. -/
theorem horizontalNav_arrows (up : String → String) (p : Page) (i : Nat) (hnav : p.horizontalNav = true)
    (hnd : (p.catButtons.map (fun b => b.category)).Nodup)
    (hact : p.catButtons.findIdx? (fun b => b.active) = some i) :
    i < p.catButtons.length ∧
    (∃ b, p.catButtons[(i + 1) % p.catButtons.length]? = some b ∧
      horizontalNavKeydown up p "ArrowRight"
        = activateCategory up (focusButton p ((i + 1) % p.catButtons.length)) b.category) ∧
    (∀ j b, (horizontalNavKeydown up p "ArrowRight").catButtons[j]? = some b →
      (b.active = true ↔ j = (i + 1) % p.catButtons.length)) ∧
    (horizontalNavKeydown up p "ArrowRight").focus
      = Focus.catButton ((i + 1) % p.catButtons.length) ∧
    (∃ b, p.catButtons[(i + p.catButtons.length - 1) % p.catButtons.length]? = some b ∧
      horizontalNavKeydown up p "ArrowLeft"
        = activateCategory up (focusButton p ((i + p.catButtons.length - 1) % p.catButtons.length))
            b.category) ∧
    (∀ j b, (horizontalNavKeydown up p "ArrowLeft").catButtons[j]? = some b →
      (b.active = true ↔ j = (i + p.catButtons.length - 1) % p.catButtons.length)) ∧
    (horizontalNavKeydown up p "ArrowLeft").focus
      = Focus.catButton ((i + p.catButtons.length - 1) % p.catButtons.length) ∧
    (i + 1 = p.catButtons.length → (i + 1) % p.catButtons.length = 0) ∧
    (i = 0 → (i + p.catButtons.length - 1) % p.catButtons.length = p.catButtons.length - 1) := by
  obtain ⟨hi, _, _⟩ := List.findIdx?_eq_some_iff_getElem.mp hact
  have hpos : 0 < p.catButtons.length := by omega
  have key : ∀ k, k < p.catButtons.length →
      ∃ b, p.catButtons[k]? = some b ∧
        clickButton up (focusButton p k) k = activateCategory up (focusButton p k) b.category ∧
        (∀ j b1, (clickButton up (focusButton p k) k).catButtons[j]? = some b1 →
          (b1.active = true ↔ j = k)) ∧
        (clickButton up (focusButton p k) k).focus = Focus.catButton k := by
    intro k hk
    have hb : p.catButtons[k]? = some p.catButtons[k] := List.getElem?_eq_getElem hk
    refine ⟨p.catButtons[k], hb, clickButton_focusButton up p k _ hb, ?_, ?_⟩
    · intro j b1 hj
      rw [clickButton_focusButton up p k _ hb] at hj
      exact activate_active_iff up (focusButton p k) k _ hb hnd j b1 hj
    · rw [clickButton_focusButton up p k _ hb, activateCategory_focus]
      rfl
  have hR : horizontalNavKeydown up p "ArrowRight"
      = clickButton up (focusButton p ((i + 1) % p.catButtons.length))
          ((i + 1) % p.catButtons.length) := by
    simp [horizontalNavKeydown, hnav, hact]
  have hL : horizontalNavKeydown up p "ArrowLeft"
      = clickButton up (focusButton p ((i + p.catButtons.length - 1) % p.catButtons.length))
          ((i + p.catButtons.length - 1) % p.catButtons.length) := by
    simp only [horizontalNavKeydown, hnav, hact, prevIndex_eq i _ hi]
    simp
  obtain ⟨b, hb1, hb2, hb3, hb4⟩ := key _ (Nat.mod_lt (i + 1) hpos)
  obtain ⟨c, hc1, hc2, hc3, hc4⟩ := key _ (Nat.mod_lt (i + p.catButtons.length - 1) hpos)
  rw [hR, hL]
  refine ⟨hi, ⟨b, hb1, hb2⟩, hb3, hb4, ⟨c, hc1, hc2⟩, hc3, hc4, ?_, ?_⟩
  · intro h
    rw [h, Nat.mod_self]
  · intro h
    subst h
    rw [Nat.zero_add]
    exact Nat.mod_eq_of_lt (by omega)

theorem horizontalNav_arrows_witness :
    samplePage.horizontalNav = true ∧
    (samplePage.catButtons.map (fun b => b.category)).Nodup ∧
    samplePage.catButtons.findIdx? (fun b => b.active) = some 0 ∧
    (horizontalNavKeydown asciiUpper samplePage "ArrowLeft").focus
      = Focus.catButton ((0 + samplePage.catButtons.length - 1) % samplePage.catButtons.length) :=
  ⟨rfl, by decide, by decide,
    (horizontalNav_arrows asciiUpper samplePage 0 rfl (by decide) (by decide)).2.2.2.2.2.2.1⟩

/-! ## Vertical list keys -/

theorem itemLabelHandler_focus (p : Page) (li ii : Nat) :
    (itemLabelHandler p li ii).focus = p.focus ∧
    (itemLabelHandler p li ii).catButtons = p.catButtons ∧
    (itemLabelHandler p li ii).verticalLists = p.verticalLists := by
  unfold itemLabelHandler
  simp only
  repeat' split
  all_goals first
    | exact ⟨rfl, rfl, rfl⟩
    | exact ⟨(setCenterLabel_fields _ _ _ _).2.2.1, (setCenterLabel_fields _ _ _ _).1,
        (setCenterLabel_fields _ _ _ _).2.1⟩

theorem focusItem_focus (p : Page) (li ii : Nat) :
    (focusItem p li ii).focus = Focus.item li ii := by
  unfold focusItem
  split_ifs with h
  · exact h
  · rw [(itemLabelHandler_focus _ li ii).1]

/-- C9: for a key event from the item at index `j` of a vertical list,
`ArrowUp` moves focus to the item at index `j - 1` when `j > 0`; when `j = 0`
it moves focus to the active category button and hence to no item of the list
(no wraparound). -/
theorem verticalList_arrowUp (p : Page) (li j : Nat) (list : VList)
    (hl : p.verticalLists[li]? = some list) (hj : j < list.items.length) :
    (0 < j → (verticalListKeydown p li (some j) "ArrowUp").focus = Focus.item li (j - 1)) ∧
    (j = 0 → ∀ k, p.catButtons.findIdx? (fun b => b.active) = some k →
      (verticalListKeydown p li (some j) "ArrowUp").focus = Focus.catButton k ∧
      ∀ i, (verticalListKeydown p li (some j) "ArrowUp").focus ≠ Focus.item li i) := by
  have hnot : ¬ list.items.length ≤ j := by omega
  constructor
  · intro hpos
    simp only [verticalListKeydown, hl, hnot, if_false, hpos, if_true]
    simp [focusItem_focus]
  · intro hz k hk
    subst hz
    have e : (verticalListKeydown p li (some 0) "ArrowUp") = focusButton p k := by
      simp only [verticalListKeydown, hl, hnot, if_false, hk]
      simp
    rw [e]
    exact ⟨rfl, fun i h => by cases h⟩

theorem verticalList_arrowUp_witness :
    samplePage.verticalLists[0]? = some
      ⟨some "video", false, true, false,
        [⟨some "Reel", none, some "Latest cut", false⟩, ⟨some "Talks", none, none, false⟩]⟩ ∧
    (samplePage.catButtons.findIdx? (fun b => b.active) = some 0 →
      (verticalListKeydown samplePage 0 (some 0) "ArrowUp").focus = Focus.catButton 0 ∧
      ∀ i, (verticalListKeydown samplePage 0 (some 0) "ArrowUp").focus ≠ Focus.item 0 i) :=
  ⟨rfl, (verticalList_arrowUp samplePage 0 0 _ rfl (by decide)).2 rfl 0⟩

/-! ## Timeline -/

theorem toggleItems_length (items : List Item) (a : Nat) :
    (toggleItems items a).length = items.length := by
  simp [toggleItems]

theorem toggleItems_getElem? (items : List Item) (a k : Nat) (it : Item)
    (ha : items[a]? = some it) :
    (toggleItems items a)[k]?
      = items[k]?.map (fun el => { el with expanded := if k = a then !it.expanded else false }) := by
  simp only [toggleItems, ha, List.getElem?_modify, List.getElem?_mapIdx]
  cases hk : items[k]? with
  | none => simp
  | some el =>
    by_cases hka : k = a
    · subst hka
      simp
    · have hak : ¬ a = k := fun h => hka h.symm
      cases el with
      | mk t tt sb ex => cases ex <;> simp [hka, hak]

theorem expandedCount_le_one (items : List Item) (a : Nat)
    (h : ∀ k el, items[k]? = some el → k ≠ a → el.expanded = false) :
    expandedCount items ≤ 1 := by
  induction items generalizing a with
  | nil => simp [expandedCount]
  | cons x xs ih =>
    unfold expandedCount at ih ⊢
    rw [List.countP_cons]
    cases a with
    | zero =>
      have hz : xs.countP (fun it => it.expanded) = 0 := by
        rw [List.countP_eq_zero]
        intro el hel
        obtain ⟨k, hk, rfl⟩ := List.getElem_of_mem hel
        have := h (k + 1) xs[k] (by simp [hk]) (by omega)
        simp [this]
      rw [hz]
      split_ifs <;> omega
    | succ a =>
      have hx : x.expanded = false := h 0 x (by simp) (by omega)
      have := ih a (fun k el hk hne => h (k + 1) el (by simpa using hk) (by omega))
      simp [hx]
      exact this

theorem toggleTimelineItem_itemsOf (p : Page) (li a : Nat) (ha : a < (p.itemsOf li).length) :
    (toggleTimelineItem p li a).itemsOf li = toggleItems (p.itemsOf li) a := by
  unfold Page.itemsOf at ha ⊢
  unfold toggleTimelineItem
  cases hl : p.verticalLists[li]? with
  | none => rw [hl] at ha; simp at ha
  | some list =>
    rw [hl] at ha
    simp only at ha ⊢
    have hli : li < p.verticalLists.length := (List.getElem?_eq_some_iff.mp hl).1
    rw [List.getElem?_eq_getElem ha]
    simp only [(setCenterLabel_fields _ _ _ _).2.1]
    simp [hli]

theorem toggleTimelineItem_invalid (p : Page) (li a : Nat) (ha : ¬ a < (p.itemsOf li).length) :
    toggleTimelineItem p li a = p := by
  unfold Page.itemsOf at ha
  unfold toggleTimelineItem
  cases hl : p.verticalLists[li]? with
  | none => rfl
  | some list =>
    rw [hl] at ha
    simp only at ha ⊢
    rw [List.getElem?_eq_none (by omega)]

theorem toggleTimelineItem_length (p : Page) (li a : Nat) :
    ((toggleTimelineItem p li a).itemsOf li).length = (p.itemsOf li).length := by
  by_cases ha : a < (p.itemsOf li).length
  · rw [toggleTimelineItem_itemsOf p li a ha, toggleItems_length]
  · rw [toggleTimelineItem_invalid p li a ha]

theorem toggleAll_length (p : Page) (li : Nat) (is : List Nat) :
    ((toggleAll p li is).itemsOf li).length = (p.itemsOf li).length := by
  induction is generalizing p with
  | nil => rfl
  | cons i is ih =>
    have h := ih (toggleTimelineItem p li i)
    simp only [toggleAll, List.foldl_cons] at h ⊢
    rw [h, toggleTimelineItem_length]

/-- C2: for a list and any sequence of `toggleTimelineItem` calls on items of
that list, at most one item of the list is expanded after the last call (hence
after each call); and for two distinct items `a` and `b` of the list, toggling
`a` and then `b` leaves `a` collapsed and `b` expanded. -/
theorem toggle_mutual_exclusion (p : Page) (li : Nat) (is : List Nat) (a : Nat)
    (hall : ∀ i ∈ is ++ [a], i < (p.itemsOf li).length) :
    expandedCount ((toggleAll p li (is ++ [a])).itemsOf li) ≤ 1 ∧
    (∀ b, b ≠ a → b < (p.itemsOf li).length →
      (((toggleTimelineItem (toggleTimelineItem p li a) li b).itemsOf li)[a]?).map
          (fun it => it.expanded) = some false ∧
      (((toggleTimelineItem (toggleTimelineItem p li a) li b).itemsOf li)[b]?).map
          (fun it => it.expanded) = some true) := by
  have ha : a < (p.itemsOf li).length := hall a (by simp)
  constructor
  · have hstep : toggleAll p li (is ++ [a]) = toggleTimelineItem (toggleAll p li is) li a := by
      simp [toggleAll, List.foldl_append]
    have ha1 : a < ((toggleAll p li is).itemsOf li).length := by
      rw [toggleAll_length]; exact ha
    rw [hstep, toggleTimelineItem_itemsOf _ li a ha1]
    apply expandedCount_le_one _ a
    intro k el hk hne
    rw [toggleItems_getElem? _ a k _ (List.getElem?_eq_getElem ha1)] at hk
    cases h0 : ((toggleAll p li is).itemsOf li)[k]? with
    | none => rw [h0] at hk; cases hk
    | some e0 =>
      rw [h0] at hk
      simp only [Option.map_some', Option.some.injEq] at hk
      subst hk
      simp [hne]
  · intro b hba hb
    have hb1 : b < ((toggleTimelineItem p li a).itemsOf li).length := by
      rw [toggleTimelineItem_length]; exact hb
    have ha1 : a < ((toggleTimelineItem p li a).itemsOf li).length := by
      rw [toggleTimelineItem_length]; exact ha
    have hbe : ((toggleTimelineItem p li a).itemsOf li)[b].expanded = false := by
      have h1 := toggleItems_getElem? (p.itemsOf li) a b _ (List.getElem?_eq_getElem ha)
      rw [← toggleTimelineItem_itemsOf p li a ha, List.getElem?_eq_getElem hb1,
        List.getElem?_eq_getElem hb] at h1
      simp only [Option.map_some', Option.some.injEq] at h1
      rw [h1]
      simp [hba]
    rw [toggleTimelineItem_itemsOf _ li b hb1]
    rw [toggleItems_getElem? _ b a _ (List.getElem?_eq_getElem hb1),
      toggleItems_getElem? _ b b _ (List.getElem?_eq_getElem hb1)]
    rw [List.getElem?_eq_getElem ha1, List.getElem?_eq_getElem hb1]
    have hab : a ≠ b := fun h => hba h.symm
    simp [hab, hbe]

theorem toggle_mutual_exclusion_witness :
    (∀ i ∈ [0, 1, 1] ++ [0], i < (samplePage.itemsOf 2).length) ∧
    expandedCount ((toggleAll samplePage 2 ([0, 1, 1] ++ [0])).itemsOf 2) ≤ 1 :=
  ⟨by decide, (toggle_mutual_exclusion samplePage 2 [0, 1, 1] 0 (by decide)).1⟩

/-! ## Center label -/

theorem orElse_some_self (s : String) : orElse (some s) "" = s := by
  unfold orElse truthy
  by_cases h : s = ""
  · simp [h]
  · simp [h]

theorem plainAttr_iconHref (category : Option String) :
    plainAttr (orElse (catIconMap category) "#icon-video") = true := by
  unfold catIconMap
  split <;> decide


theorem queryListByCategory_of_lists (q : Page) (lists : List VList) (cat : Option String)
    (c : String) (list : VList) (hsafe : selectorSafe (some c) = true)
    (hq : q.verticalLists = lists.map (fun l =>
      { l with active := l.category == cat, hidden := !(l.category == cat) }))
    (hlist : lists.find? (fun l => l.category == some c) = some list) :
    queryListByCategory q (some c)
      = some (some { list with active := list.category == cat
                               hidden := !(list.category == cat) }) := by
  unfold queryListByCategory
  rw [if_pos hsafe, hq]
  simp only [templateText, List.find?_map]
  have : ((fun l : VList => l.category == some c) ∘ fun l : VList =>
      { l with active := l.category == cat, hidden := !(l.category == cat) })
      = fun l : VList => l.category == some c := rfl
  rw [this, hlist]
  rfl

theorem catLbl_of_buttons (up : String → String) (q : Page) (buttons : List CatButton)
    (c : String) (btn : CatButton)
    (hq : q.catButtons = buttons.map (fun b =>
      { b with active := b.category == some c
               ariaSelected := some (if b.category == some c then "true" else "false") }))
    (hbtn : buttons.find? (fun b => b.category == some c) = some btn) :
    catLbl up q (some c) = orElse (btn.catLabel.map jsTrim) (capitalize up c) := by
  unfold catLbl
  rw [hq]
  simp only [List.find?_map]
  have : ((fun b : CatButton => b.category == some c) ∘ fun b : CatButton =>
      { b with active := b.category == some c
               ariaSelected := some (if b.category == some c then "true" else "false") })
      = fun b : CatButton => b.category == some c := rfl
  rw [this, hbtn]
  simp only [Option.map_some', Option.some_bind]
  by_cases hc : truthy c = true
  · rw [if_pos hc]
  · rw [if_neg hc]
    have : c = "" := by simpa [truthy] using hc
    subst this
    rfl

/-- C8 (as amended): for a category whose identifier is selector-safe (no
double quote, backslash, line break, form feed or NUL) and whose vertical list
has no items, `activateCategory` writes the center label from the template
without its description part.  The title text is the trimmed text of the
category button's label element when that text is not blank, and otherwise
(label element missing or blank) the identifier with `toUpperCase()` applied to
its first UTF-16 code unit, which leaves the identifier unchanged when its
first character lies outside the basic plane.  When the title text is plain (no
`<`, `&`, carriage return or NUL) the parsed label holds exactly that text in
its title element and has no description element. -/
theorem activateCategory_empty_list_label (up : String → String) (p : Page) (c : String)
    (btn : CatButton) (list : VList)
    (hel : p.centerLabelEl = true)
    (hsafe : selectorSafe (some c) = true)
    (hbtn : p.catButtons.find? (fun b => b.category == some c) = some btn)
    (hlist : p.verticalLists.find? (fun l => l.category == some c) = some list)
    (hempty : list.items = []) :
    ∃ lbl, (activateCategory up p (some c)).centerLabel = some lbl ∧
      (∀ t, btn.catLabel = some t → jsTrim t ≠ "" → lbl.safeTitle = jsTrim t) ∧
      ((btn.catLabel = none ∨ btn.catLabel.map jsTrim = some "") →
        lbl.safeTitle = capitalize up c) ∧
      lbl.safeDesc = "" ∧
      lbl.innerHTML =
        "<svg class=\"icon\" aria-hidden=\"true\"><use href=\"" ++ lbl.iconHref ++
          "\"></use></svg>" ++
        "<div class=\"wrap\"><div class=\"title\">" ++ lbl.safeTitle ++ "</div>" ++ "</div>" ∧
      (plainText lbl.safeTitle = true →
        lbl.titleElement = some lbl.safeTitle ∧ lbl.descElement = some none) := by
  have hcl : (activateCategory up p (some c)).centerLabel
      = some ⟨orElse (catIconMap (some c)) "#icon-video",
          orElse (btn.catLabel.map jsTrim) (capitalize up c), ""⟩ := by
    unfold activateCategory
    simp only
    rw [queryListByCategory_of_lists _ p.verticalLists (some c) c list hsafe rfl hlist]
    simp only
    rw [catLbl_of_buttons up _ p.catButtons c btn rfl hbtn]
    simp only [Option.some_bind, VList.queryTitle, VList.queryTitleT, VList.querySub, hempty,
      List.findSome?_nil, Option.map_none', ite_self]
    simp [setCenterLabel, hel, orElse_some_self]
    rfl
  refine ⟨_, hcl, ?_, ?_, rfl, ?_, ?_⟩
  · intro t ht hne
    simp [ht, orElse, truthy, hne]
  · intro h
    rcases h with h | h
    · simp [h, orElse]
    · cases hb : btn.catLabel with
      | none => simp [orElse]
      | some t =>
        rw [hb] at h
        simp only [Option.map_some', Option.some.injEq] at h
        simp [orElse, truthy, h]
  · simp [CenterLabel.innerHTML, truthy]
  · intro hplain
    have hp : CenterLabel.plain ⟨orElse (catIconMap (some c)) "#icon-video",
        orElse (btn.catLabel.map jsTrim) (capitalize up c), ""⟩ = true := by
      simp only [CenterLabel.plain, plainAttr_iconHref, Bool.true_and, Bool.and_eq_true]
      exact ⟨hplain, by decide⟩
    simp [CenterLabel.titleElement, CenterLabel.descElement, hp, truthy]

theorem activateCategory_empty_list_label_witness :
    samplePage.centerLabelEl = true ∧
    selectorSafe (some "music") = true ∧
    samplePage.catButtons.find? (fun b => b.category == some "music")
      = some ⟨some "music", false, some "false", some " Music "⟩ ∧
    samplePage.verticalLists.find? (fun l => l.category == some "music")
      = some ⟨some "music", false, false, true, []⟩ ∧
    ∃ lbl, (activateCategory asciiUpper samplePage (some "music")).centerLabel = some lbl ∧
      (∀ t, some " Music " = some t → jsTrim t ≠ "" → lbl.safeTitle = jsTrim t) ∧
      (((some " Music " : Option String) = none ∨
          (some " Music " : Option String).map jsTrim = some "") →
        lbl.safeTitle = capitalize asciiUpper "music") ∧
      lbl.safeDesc = "" ∧
      lbl.innerHTML =
        "<svg class=\"icon\" aria-hidden=\"true\"><use href=\"" ++ lbl.iconHref ++
          "\"></use></svg>" ++
        "<div class=\"wrap\"><div class=\"title\">" ++ lbl.safeTitle ++ "</div>" ++ "</div>" ∧
      (plainText lbl.safeTitle = true →
        lbl.titleElement = some lbl.safeTitle ∧ lbl.descElement = some none) :=
  ⟨rfl, by decide, by decide, by decide,
    activateCategory_empty_list_label asciiUpper samplePage "music"
      ⟨some "music", false, some "false", some " Music "⟩
      ⟨some "music", false, false, true, []⟩ rfl (by decide) (by decide) (by decide) rfl⟩

/-- C8 (as stated) fails: on a page whose `music` list is empty and whose
`music` button has a label element with empty text, `activateCategory("music")`
writes the title `Music`, not the label element's text. -/
theorem activateCategory_blank_label_title :
    (queryListByCategory blankLabelPage (some "music")).map
        (fun r => r.map (fun l => l.items)) = some (some []) ∧
    (blankLabelPage.catButtons.find? (fun b => b.category == some "music")).bind
        (fun b => b.catLabel) = some "" ∧
    (activateCategory asciiUpper blankLabelPage (some "music")).centerLabel.bind
        CenterLabel.titleElement = some "Music" ∧
    (activateCategory asciiUpper blankLabelPage (some "music")).centerLabel.bind
        CenterLabel.titleElement
      ≠ (blankLabelPage.catButtons.find? (fun b => b.category == some "music")).bind
          (fun b => b.catLabel) := by
  decide

/-- On a page whose category identifier is `mu"sic` the selector of line 129 is
rejected: the button is marked active and the center label is not written. -/
theorem activateCategory_quoted_identifier :
    selectorSafe (some "mu\"sic") = false ∧
    queryListByCategory quotedIdPage (some "mu\"sic") = none ∧
    (activateCategory asciiUpper quotedIdPage (some "mu\"sic")).centerLabel = none ∧
    (activateCategory asciiUpper quotedIdPage (some "mu\"sic")).catButtons.map
        (fun b => b.active) = [true] := by
  decide

/-- C7 fails on the code: on a page whose `video` list is not a timeline and
whose first item has the title `Alpha` and no sub-description while the second
item has the sub-description `About beta`, `activateCategory("video")` shows
the first item's title together with the second item's sub-description. -/
theorem activateCategory_desc_from_later_item :
    (queryListByCategory orphanSubPage (some "video")).map
        (fun r => r.map (fun l => l.timeline)) = some (some false) ∧
    (queryListByCategory orphanSubPage (some "video")).map
        (fun r => r.map (fun l => l.items.head?.map (fun it => (it.title, it.sub))))
      = some (some (some (some "Alpha", none))) ∧
    (activateCategory asciiUpper orphanSubPage (some "video")).centerLabel
      = some ⟨"#icon-video", "Alpha", "About beta"⟩ ∧
    (activateCategory asciiUpper orphanSubPage (some "video")).centerLabel.bind
        CenterLabel.descElement
      = some (some "About beta") ∧
    (itemLabelHandler orphanSubPage 0 0).centerLabel.bind CenterLabel.descElement
      = some none := by
  decide

end XMB
